import Mathlib

/-!
Verification of the `cliapi` repository: a shallow embedding of the two
source files (`agent-client.py`, the session-protocol client, and
`agent_server.py`, the OpenAI-compatible gateway) together with theorems
settling the behavioural claims about them.

Strings are modelled by Lean `String`; Python dictionaries carrying a
discriminating `type` field are modelled by inductive types whose variants
carry the fields the code reads (a missing field that the code defaults
with `.get(k, d)` is modelled as the default).  External effects
(the subprocess run by the gateway, the bytes arriving on the FIFO) are
modelled as explicit inputs to the embedded functions.
-/

namespace CliApi

/-! ## Client: `agent-client.py` -/

/-- A content block inside an `assistant` envelope's `message.content` list.
`extract_text` only looks at blocks that are dicts with `type == "text"`,
reading their `text` field (default `""`); everything else is ignored. -/
inductive Block where
  | text (t : String)
  | other
deriving DecidableEq, Repr

/-- The `delta` object of a `content_block_delta` envelope: only a delta with
`type == "text_delta"` contributes its `text` field (default `""`). -/
inductive Delta where
  | textDelta (t : String)
  | other
deriving DecidableEq, Repr

/-- One parsed stream-json envelope, discriminated by its `type` field, as
read by `read_responses`/`extract_text`.  Variants carry exactly the fields
the client code reads; `otherType` stands for any other `type` string. -/
inductive Envelope where
  | user (content : String)
  | assistant (content : List Block)
  | contentBlockDelta (delta : Delta)
  | result (result : String)
  | error
  | otherType (t : String)
deriving DecidableEq, Repr

/-- Test `msg_type == "result"` or `msg_type == "error"`: the envelope ends the
turn in `read_responses`. -/
def isTerminal : Envelope → Bool
  | .result _ => true
  | .error => true
  | _ => false

/-- Test `msg_type == "result"`. -/
def isResult : Envelope → Bool
  | .result _ => true
  | _ => false

/-- One line delivered on the output FIFO, as seen by `read_responses` after
buffering and splitting on newlines: a whitespace-only line (skipped by the
`if not line.strip()` check), a line that fails `json.loads` (skipped by the
`except JSONDecodeError` handler), or a line parsing to an envelope. -/
inductive Line where
  | blank
  | malformed
  | env (e : Envelope)
deriving DecidableEq, Repr

/-- The envelopes encoded by a line sequence, in arrival order. -/
def parsedEnvs (ls : List Line) : List Envelope :=
  ls.filterMap fun l => match l with
    | .env e => some e
    | _ => none

/-- Embedding of `read_responses` over the sequence of lines the FIFO delivers:
skip blank and malformed lines, yield each parsed envelope, and return
(stopping the generator) right after yielding the first `result` or `error`
envelope.  The value is the list of envelopes the generator yields. -/
def read_responses : List Line → List Envelope
  | [] => []
  | .blank :: rest => read_responses rest
  | .malformed :: rest => read_responses rest
  | .env e :: rest =>
    if isTerminal e then [e] else e :: read_responses rest

/-- The `text` fields of the `text`-kind blocks of an `assistant` envelope's
content list, in order (the inner `for block in content` loop). -/
def assistantTexts (blocks : List Block) : List String :=
  blocks.filterMap fun b => match b with
    | .text t => some t
    | .other => none

/-- Python `"".join` on the accumulated parts list. -/
def joinAll : List String → String
  | [] => ""
  | s :: rest => s ++ joinAll rest

/-- The loop of `extract_text`, with `parts` the accumulator list: on
`result` return its `result` field at once, on `assistant` append the texts
of its `text` blocks, on `content_block_delta` with a `text_delta` append
its text, ignore every other type; at the end `"".join(parts)`. -/
def extract_textAux (parts : List String) : List Envelope → String
  | [] => joinAll parts
  | .result r :: _ => r
  | .assistant blocks :: rest => extract_textAux (parts ++ assistantTexts blocks) rest
  | .contentBlockDelta (.textDelta t) :: rest => extract_textAux (parts ++ [t]) rest
  | .contentBlockDelta .other :: rest => extract_textAux parts rest
  | .user _ :: rest => extract_textAux parts rest
  | .error :: rest => extract_textAux parts rest
  | .otherType _ :: rest => extract_textAux parts rest

/-- Embedding of `extract_text`: reduce one turn's envelope list to the final text. -/
def extract_text (responses : List Envelope) : String :=
  extract_textAux [] responses

/-- The fallback fragments of an envelope sequence, in arrival order: the
texts of `text`-kind blocks of `assistant` envelopes and the texts of
`text_delta` deltas of `content_block_delta` envelopes; nothing else. -/
def fragments : List Envelope → List String
  | [] => []
  | .assistant blocks :: rest => assistantTexts blocks ++ fragments rest
  | .contentBlockDelta (.textDelta t) :: rest => t :: fragments rest
  | _ :: rest => fragments rest

/-- Outcome of one `read_responses` pass as observed by `call`:
either the generator ran to completion (a terminal envelope arrived before
any timeout) over the delivered lines, or `select` timed out and
`TimeoutError` was raised after the given lines had been delivered. -/
inductive TurnOutcome where
  | ok (lines : List Line)
  | timeout (lines : List Line)
deriving DecidableEq, Repr

/-- Errors `call` can raise. -/
inductive CallErr where
  | daemonNotRunning
  | timeoutErr
deriving DecidableEq, Repr

/-- Embedding of `call(prompt, clear, timeout, raw_prompt)`, with the
environment made explicit: `fifoInExists` models `os.path.exists(FIFO_IN)`,
`primary` the primary turn's read and `drain` the clear-drain's read.
The primary turn's `TimeoutError` propagates; during the clear drain it is
caught and ignored, and the drained envelopes are discarded either way. -/
def call (fifoInExists : Bool) (clear : Bool)
    (primary drain : TurnOutcome) : Except CallErr String :=
  if !fifoInExists then .error .daemonNotRunning
  else
    match primary with
    | .timeout _ => .error .timeoutErr
    | .ok lines =>
      let result := extract_text (read_responses lines)
      if clear then
        match drain with
        | .ok _ => .ok result
        | .timeout _ => .ok result
      else .ok result

/-! ## Server: `agent_server.py` -/

/-- The startup environment: `AGENT_GATEWAY_KEY` and
`AGENT_GATEWAY_FORCE_AGENT`, both defaulting to `""`. -/
structure Config where
  apiKey : String
  forceAgent : String
deriving DecidableEq, Repr

/-- Python `s.startswith(pre)`. -/
def startswith (s pre : String) : Bool :=
  pre.data.isPrefixOf s.data

/-- Drop the leading whitespace characters of a character sequence. -/
def dropLeadingWs : List Char → List Char
  | [] => []
  | c :: rest => if c.isWhitespace then dropLeadingWs rest else c :: rest

/-- Python `s.strip()` with no argument: remove leading and trailing
whitespace. -/
def strip (s : String) : String :=
  String.mk ((dropLeadingWs (dropLeadingWs s.data).reverse).reverse)

/-- Embedding of `check_auth()`: allow all when no key is configured, otherwise require
an `Authorization` header equal to `"Bearer " + API_KEY`.  `authHeader`
models `request.headers.get("Authorization", "")`. -/
def check_auth (cfg : Config) (authHeader : String) : Bool :=
  if cfg.apiKey = "" then true
  else if startswith authHeader "Bearer " then authHeader.drop 7 = cfg.apiKey
  else false

/-- One entry of `MODEL_MAP`: agent name and optional sub-model. -/
structure ModelConfig where
  agent : String
  model : Option String
deriving DecidableEq, Repr

/-- Embedding of `MODEL_MAP.get`: the routing table from model name to agent config. -/
def MODEL_MAP (name : String) : Option ModelConfig :=
  if name = "claude-code" then some ⟨"claude", none⟩
  else if name = "claude-code-opus" then some ⟨"claude", some "opus"⟩
  else if name = "claude-code-sonnet" then some ⟨"claude", some "sonnet"⟩
  else if name = "amazon-q" then some ⟨"amazonq", none⟩
  else if name = "amazonq" then some ⟨"amazonq", none⟩
  else if name = "codex" then some ⟨"codex", none⟩
  else if name = "aider" then some ⟨"aider", none⟩
  else if name = "aider-gpt4" then some ⟨"aider", some "gpt-4"⟩
  else if name = "aider-claude" then some ⟨"aider", some "claude-3-opus-20240229"⟩
  else none

/-- An item of a message's content array: a dict with `type == "text"`
(contributing its `text` field, default `""`), a plain string item, or any
other item (skipped). -/
inductive ContentItem where
  | textBlock (text : String)
  | strItem (s : String)
  | otherItem
deriving DecidableEq, Repr

/-- A message's `content` value: a string or an array of items.  (The code's
final `str(content) if content else ""` fallback for other JSON types is
outside this model; the gateway claims only involve these two shapes.) -/
inductive Content where
  | str (s : String)
  | arr (items : List ContentItem)
deriving DecidableEq, Repr

/-- Embedding of `extract_content`: a string passes through; an array is reduced to its
`text`-block texts and plain-string items joined by `"\n"`. -/
def extract_content : Content → String
  | .str s => s
  | .arr items =>
    String.intercalate "\n" (items.filterMap fun it => match it with
      | .textBlock t => some t
      | .strItem s => some s
      | .otherItem => none)

/-- One chat message: `role` models `msg.get("role", "user")` and `content`
models `msg.get("content", "")` (a missing content is `.str ""`). -/
structure Message where
  role : String
  content : Content
deriving DecidableEq, Repr

/-- Embedding of `messages_to_prompt`: prefix system/assistant contents, pass user
contents through, drop any other role, and join the parts with `"\n\n"`. -/
def messages_to_prompt (messages : List Message) : String :=
  String.intercalate "\n\n" (messages.filterMap fun msg =>
    if msg.role = "system" then some ("[System]: " ++ extract_content msg.content)
    else if msg.role = "user" then some (extract_content msg.content)
    else if msg.role = "assistant" then some ("[Previous response]: " ++ extract_content msg.content)
    else none)

/-- A request's `response_format` object: its `type` field and, when the
nested `json_schema.schema` object is present and truthy, that schema
(modelled by its `json.dumps` serialization). -/
structure RespFormat where
  fmtType : String
  schemaJson : Option String
deriving DecidableEq, Repr

/-- Embedding of `extract_json_schema`: only `type == "json_schema"` with a truthy
nested schema yields a constraint string. -/
def extract_json_schema : Option RespFormat → Option String
  | none => none
  | some rf => if rf.fmtType = "json_schema" then rf.schemaJson else none

/-- The arguments `chat_completions` assembles for `call_agent` (which turns
them into the `agent-call` command line). -/
structure AgentInvocation where
  agent : String
  model : Option String
  prompt : String
  context : Option String
  jsonSchema : Option String
deriving DecidableEq, Repr

/-- What `subprocess.run` did for one invocation: completed with an exit
code, stdout and stderr; hit the timeout (`TimeoutExpired`); or raised some
other exception with the given message. -/
inductive AgentOutcome where
  | completed (returncode : Int) (stdout : String) (stderr : String)
  | timedOut
  | raised (msg : String)
deriving DecidableEq, Repr

/-- Embedding of `call_agent`, over the outcome the external process produced for the
assembled invocation: non-zero exit maps to `"Error: "` plus the stripped
stderr (or the default message when that is empty), success returns the
stripped stdout, timeout and exceptions map to `"Error: ..."` texts. -/
def call_agent (inv : AgentInvocation) (runner : AgentInvocation → AgentOutcome) : String :=
  match runner inv with
  | .completed rc out err =>
    if rc ≠ 0 then
      let m := strip err
      "Error: " ++ (if m = "" then "Agent execution failed" else m)
    else strip out
  | .timedOut => "Error: Agent execution timed out"
  | .raised msg => "Error: " ++ msg

/-- The number of maximal whitespace-free runs of a string: `len(s.split())`
for Python `str.split()` with no argument.  `inWord` records whether the
previous character was part of a word. -/
def countWordsAux : List Char → Bool → Nat
  | [], _ => 0
  | c :: rest, inWord =>
    if c.isWhitespace then countWordsAux rest false
    else (if inWord then 0 else 1) + countWordsAux rest true

/-- Python `len(content.split())`. -/
def wordCount (s : String) : Nat :=
  countWordsAux s.data false

/-- The `usage` object of a completion. -/
structure Usage where
  prompt_tokens : Nat
  completion_tokens : Nat
  total_tokens : Nat
deriving DecidableEq, Repr

/-- One entry of a completion's `choices` array. -/
structure Choice where
  index : Nat
  role : String
  content : String
  finish_reason : String
deriving DecidableEq, Repr

/-- An OpenAI-compatible chat-completion object, with the fields
`create_response` emits.  `id` and `created` are produced by
`generate_completion_id()` and `int(time.time())`, which the embedding
receives as explicit inputs. -/
structure Completion where
  id : String
  object : String
  created : Nat
  model : String
  choices : List Choice
  usage : Usage
deriving DecidableEq, Repr

/-- Embedding of `create_response(content, model, completion_id, prompt_tokens,
completion_tokens)`: when a token count argument is `0` (its default) it is
estimated from `content.split()` — the prompt-token estimate is the word
count of `content` floor-divided by two, the completion-token estimate the
word count of `content`. -/
def create_response (content model completionId : String) (created : Nat)
    (pt ct : Nat) : Completion :=
  let prompt_tokens := if pt = 0 then wordCount content / 2 else pt
  let completion_tokens := if ct = 0 then wordCount content else ct
  { id := completionId
    object := "chat.completion"
    created := created
    model := model
    choices := [{ index := 0, role := "assistant", content := content,
                  finish_reason := "stop" }]
    usage := { prompt_tokens := prompt_tokens
               completion_tokens := completion_tokens
               total_tokens := prompt_tokens + completion_tokens } }

/-- One item yielded by `stream_response`: a chat-completion-chunk SSE event
(`delta` is `some cs` for `{"content": chunk}` and `none` for the empty
delta `{}` emitted when the chunk string is empty; `finishReason` is the
chunk's `finish_reason`), or the final `data: [DONE]` sentinel line. -/
inductive SSEEvent where
  | chunk (id : String) (created : Nat) (model : String)
      (delta : Option (List Char)) (finishReason : Option String)
  | done
deriving DecidableEq, Repr

/-- Fuel-bounded loop behind `chunkSplit20`: one step per chunk, consuming
at least one character each step, so fuel equal to the input length never
runs out. -/
def chunkSplit20Fuel : Nat → List Char → List (List Char)
  | _, [] => []
  | 0, _ :: _ => []
  | fuel + 1, c :: cs => (c :: cs).take 20 :: chunkSplit20Fuel fuel ((c :: cs).drop 20)

/-- Python `[content[i:i+20] for i in range(0, len(content), 20)]`: split a
character sequence into successive runs of 20. -/
def chunkSplit20 (cs : List Char) : List (List Char) :=
  chunkSplit20Fuel cs.length cs

/-- Embedding of `stream_response(content, model)`: chunk the completed text into
20-character pieces (one empty chunk when the text is empty), emit one
chunk event per piece — the last one carrying `finish_reason "stop"`, the
earlier ones `None`, and an empty piece carrying an empty delta object —
then the `[DONE]` sentinel. -/
def stream_response (content model completionId : String) (created : Nat) :
    List SSEEvent :=
  let chunks := chunkSplit20 content.data
  let chunks := if chunks = [] then [[]] else chunks
  (chunks.enum.map fun p =>
    SSEEvent.chunk completionId created model
      (if p.2 = [] then none else some p.2)
      (if p.1 < chunks.length - 1 then none else some "stop"))
  ++ [SSEEvent.done]

/-- The JSON body of a `POST /v1/chat/completions` request, with the fields
the handler reads; `Option` marks fields `.get` defaults when absent. -/
structure ChatRequest where
  model : Option String
  messages : List Message
  stream : Option Bool
  response_format : Option RespFormat
  context : Option String
deriving DecidableEq, Repr

/-- The HTTP response of the chat-completions handler: a structured error
body `{"error": {"message", "type"?}}` with its status code, a completion
object (status 200), or an SSE stream (status 200). -/
inductive GatewayResult where
  | err (status : Nat) (message : String) (errType : Option String)
  | completion (status : Nat) (body : Completion)
  | sse (status : Nat) (events : List SSEEvent)
deriving DecidableEq, Repr

/-- The HTTP status code of a gateway result. -/
def statusOf : GatewayResult → Nat
  | .err s _ _ => s
  | .completion s _ => s
  | .sse s _ => s

/-- The `error.type` field of a gateway result's body, when the result is a
structured error carrying one. -/
def errTypeOf : GatewayResult → Option String
  | .err _ _ t => t
  | _ => none

/-- Embedding of `chat_completions()`: auth check (401), body presence check (400,
`body = none` models an absent or falsy JSON body), `messages` non-empty
check (400), routing-table lookup (400 with type `invalid_request_error`),
`FORCE_AGENT` override, prompt flattening, schema extraction, the agent
call, and the streaming or non-streaming response.  `runner` models the
external process, `completionId` and `now` the generated id and clock. -/
def chat_completions (cfg : Config) (authHeader : String)
    (body : Option ChatRequest) (runner : AgentInvocation → AgentOutcome)
    (completionId : String) (now : Nat) : GatewayResult :=
  if !check_auth cfg authHeader then
    .err 401 "Invalid API key" (some "auth_error")
  else
    match body with
    | none => .err 400 "Request body required" none
    | some data =>
      let model_name := data.model.getD "claude-code"
      let messages := data.messages
      let stream := data.stream.getD false
      if messages = [] then .err 400 "messages field required" none
      else
        match MODEL_MAP model_name with
        | none => .err 400 ("Unknown model: " ++ model_name) (some "invalid_request_error")
        | some model_config =>
          let agent := if cfg.forceAgent ≠ "" then cfg.forceAgent else model_config.agent
          let model := if cfg.forceAgent ≠ "" then none else model_config.model
          let prompt := messages_to_prompt messages
          let json_schema := extract_json_schema data.response_format
          let response_content :=
            call_agent ⟨agent, model, prompt, data.context, json_schema⟩ runner
          if stream then
            .sse 200 (stream_response response_content model_name completionId now)
          else
            .completion 200 (create_response response_content model_name completionId now 0 0)

/-! ## Lemmas about the client -/

theorem extract_textAux_result (r : String) (rest : List Envelope) :
    ∀ (pre : List Envelope) (parts : List String),
      (∀ e ∈ pre, isResult e = false) →
      extract_textAux parts (pre ++ Envelope.result r :: rest) = r := by
  intro pre
  induction pre with
  | nil => intro parts _; rfl
  | cons a pre ih =>
    intro parts h
    have ha : isResult a = false := h a (List.mem_cons_self a pre)
    have h' : ∀ e ∈ pre, isResult e = false := fun e he => h e (List.mem_cons_of_mem a he)
    cases a with
    | user c => simpa [extract_textAux] using ih parts h'
    | assistant blocks => simpa [extract_textAux] using ih (parts ++ assistantTexts blocks) h'
    | contentBlockDelta d =>
      cases d with
      | textDelta t => simpa [extract_textAux] using ih (parts ++ [t]) h'
      | other => simpa [extract_textAux] using ih parts h'
    | result r' => simp [isResult] at ha
    | error => simpa [extract_textAux] using ih parts h'
    | otherType t => simpa [extract_textAux] using ih parts h'

theorem extract_textAux_no_result :
    ∀ (msgs : List Envelope) (parts : List String),
      (∀ e ∈ msgs, isResult e = false) →
      extract_textAux parts msgs = joinAll (parts ++ fragments msgs) := by
  intro msgs
  induction msgs with
  | nil => intro parts _; simp [extract_textAux, fragments]
  | cons a msgs ih =>
    intro parts h
    have ha : isResult a = false := h a (List.mem_cons_self a msgs)
    have h' : ∀ e ∈ msgs, isResult e = false := fun e he => h e (List.mem_cons_of_mem a he)
    cases a with
    | user c => simpa [extract_textAux, fragments] using ih parts h'
    | assistant blocks =>
      rw [show extract_textAux parts (Envelope.assistant blocks :: msgs)
            = extract_textAux (parts ++ assistantTexts blocks) msgs from rfl,
          ih (parts ++ assistantTexts blocks) h']
      simp [fragments, List.append_assoc]
    | contentBlockDelta d =>
      cases d with
      | textDelta t =>
        rw [show extract_textAux parts (Envelope.contentBlockDelta (Delta.textDelta t) :: msgs)
              = extract_textAux (parts ++ [t]) msgs from rfl,
            ih (parts ++ [t]) h']
        simp [fragments, List.append_assoc]
      | other => simpa [extract_textAux, fragments] using ih parts h'
    | result r' => simp [isResult] at ha
    | error => simpa [extract_textAux, fragments] using ih parts h'
    | otherType t => simpa [extract_textAux, fragments] using ih parts h'

theorem read_responses_no_after_terminal :
    ∀ (ls : List Line) (pre : List Envelope) (e : Envelope) (suf : List Envelope),
      read_responses ls = pre ++ e :: suf → isTerminal e = true → suf = [] := by
  intro ls
  induction ls with
  | nil =>
    intro pre e suf h _
    exact absurd h.symm (by simp [read_responses])
  | cons l rest ih =>
    intro pre e suf h ht
    cases l with
    | blank => exact ih pre e suf (by simpa [read_responses] using h) ht
    | malformed => exact ih pre e suf (by simpa [read_responses] using h) ht
    | env a =>
      by_cases ha : isTerminal a = true
      · rw [show read_responses (Line.env a :: rest)
              = if isTerminal a then [a] else a :: read_responses rest from rfl,
            if_pos ha] at h
        cases pre with
        | nil =>
          simp at h
          exact h.2
        | cons p pre' =>
          rw [List.cons_append] at h
          have := (List.cons.injEq _ _ _ _).mp h
          exact absurd this.2.symm (by simp)
      · rw [show read_responses (Line.env a :: rest)
              = if isTerminal a then [a] else a :: read_responses rest from rfl,
            if_neg ha] at h
        cases pre with
        | nil =>
          have := (List.cons.injEq _ _ _ _).mp h
          exact absurd (this.1 ▸ ht) ha
        | cons p pre' =>
          rw [List.cons_append] at h
          have := (List.cons.injEq _ _ _ _).mp h
          exact ih pre' e suf this.2 ht

theorem read_responses_yields_first_terminal :
    ∀ (ls : List Line) (e : Envelope),
      (parsedEnvs ls).find? isTerminal = some e →
      (read_responses ls).getLast? = some e := by
  intro ls
  induction ls with
  | nil => intro e h; simp [parsedEnvs] at h
  | cons l rest ih =>
    intro e h
    cases l with
    | blank =>
      rw [show parsedEnvs (Line.blank :: rest) = parsedEnvs rest from rfl] at h
      simpa [read_responses] using ih e h
    | malformed =>
      rw [show parsedEnvs (Line.malformed :: rest) = parsedEnvs rest from rfl] at h
      simpa [read_responses] using ih e h
    | env a =>
      rw [show parsedEnvs (Line.env a :: rest) = a :: parsedEnvs rest from rfl] at h
      by_cases ha : isTerminal a = true
      · rw [List.find?_cons_of_pos _ ha] at h
        rw [show read_responses (Line.env a :: rest)
              = if isTerminal a then [a] else a :: read_responses rest from rfl,
            if_pos ha]
        simpa using h
      · rw [List.find?_cons_of_neg _ ha] at h
        have hrec := ih e h
        rw [show read_responses (Line.env a :: rest)
              = if isTerminal a then [a] else a :: read_responses rest from rfl,
            if_neg ha]
        have hne : read_responses rest ≠ [] := by
          intro hn
          rw [hn] at hrec
          simp at hrec
        obtain ⟨b, t, hbt⟩ := List.exists_cons_of_ne_nil hne
        rw [hbt] at hrec ⊢
        rw [List.getLast?_cons_cons]
        exact hrec

/-! ## Claims about the client -/

/-- C3: for every envelope sequence whose first `result` envelope carries
`result` field `r`, `extract_text` returns exactly `r`, regardless of the
text fragments (or any other envelopes) preceding it. -/
theorem extract_text_result_authoritative (pre : List Envelope) (r : String)
    (rest : List Envelope) (h : ∀ e ∈ pre, isResult e = false) :
    extract_text (pre ++ Envelope.result r :: rest) = r :=
  extract_textAux_result r rest pre [] h

theorem extract_text_result_authoritative_witness :
    extract_text
        ([Envelope.assistant [Block.text "AB"],
          Envelope.contentBlockDelta (Delta.textDelta "CD"),
          Envelope.otherType "system"]
         ++ Envelope.result "FINAL" :: [Envelope.assistant [Block.text "ZZ"]])
      = "FINAL" :=
  extract_text_result_authoritative
    [Envelope.assistant [Block.text "AB"],
     Envelope.contentBlockDelta (Delta.textDelta "CD"),
     Envelope.otherType "system"]
    "FINAL" [Envelope.assistant [Block.text "ZZ"]] (by decide)

/-- C4: for every envelope sequence with no `result` envelope,
`extract_text` returns the concatenation, in arrival order with no
separators, of the `text`-kind block texts of `assistant` envelopes and the
`text_delta` texts of `content_block_delta` envelopes; other envelope types
contribute nothing, and in particular a sequence holding only an `error`
terminal yields the empty string. -/
theorem extract_text_fallback_concat :
    (∀ msgs : List Envelope, (∀ e ∈ msgs, isResult e = false) →
        extract_text msgs = joinAll (fragments msgs)) ∧
    extract_text [Envelope.error] = "" := by
  constructor
  · intro msgs h
    simpa [extract_text] using extract_textAux_no_result msgs [] h
  · rfl

theorem extract_text_fallback_concat_witness :
    extract_text
        [Envelope.assistant [Block.text "AB", Block.other], Envelope.user "u",
         Envelope.contentBlockDelta (Delta.textDelta "CD"), Envelope.error]
      = joinAll (fragments
        [Envelope.assistant [Block.text "AB", Block.other], Envelope.user "u",
         Envelope.contentBlockDelta (Delta.textDelta "CD"), Envelope.error]) :=
  extract_text_fallback_concat.1
    [Envelope.assistant [Block.text "AB", Block.other], Envelope.user "u",
     Envelope.contentBlockDelta (Delta.textDelta "CD"), Envelope.error]
    (by decide)

/-- C5: turn collection yields the first `result` or `error` envelope of
the input line sequence (it appears, as the last element of the yielded
sequence) and never yields any envelope after a terminal one. -/
theorem read_responses_stops_at_first_terminal (ls : List Line) :
    (∀ e, (parsedEnvs ls).find? isTerminal = some e →
        (read_responses ls).getLast? = some e) ∧
    (∀ pre e suf, read_responses ls = pre ++ e :: suf →
        isTerminal e = true → suf = []) :=
  ⟨fun e h => read_responses_yields_first_terminal ls e h,
   fun pre e suf h ht => read_responses_no_after_terminal ls pre e suf h ht⟩

theorem read_responses_stops_at_first_terminal_witness :
    (read_responses
        [Line.env (Envelope.assistant [Block.text "a"]), Line.malformed,
         Line.env (Envelope.result "r"), Line.env (Envelope.assistant [Block.text "b"])]).getLast?
      = some (Envelope.result "r") :=
  (read_responses_stops_at_first_terminal
    [Line.env (Envelope.assistant [Block.text "a"]), Line.malformed,
     Line.env (Envelope.result "r"), Line.env (Envelope.assistant [Block.text "b"])]).1
    (Envelope.result "r") (by decide)

/-- C6: when `clear` is requested and the primary turn completes, `call`
returns the primary turn's aggregated text even when the clear-drain read
times out; the value is the same as when the drain succeeds. -/
theorem call_clear_drain_timeout_swallowed (lines drainLines : List Line) :
    call true true (TurnOutcome.ok lines) (TurnOutcome.timeout drainLines)
        = Except.ok (extract_text (read_responses lines)) ∧
    call true true (TurnOutcome.ok lines) (TurnOutcome.timeout drainLines)
        = call true true (TurnOutcome.ok lines) (TurnOutcome.ok drainLines) :=
  ⟨rfl, rfl⟩

/-! ## Lemmas about the gateway -/

theorem chat_completions_valid_nonstream
    (cfg : Config) (authHeader : String) (req : ChatRequest)
    (runner : AgentInvocation → AgentOutcome) (cid : String) (now : Nat)
    (mc : ModelConfig)
    (hauth : check_auth cfg authHeader = true)
    (hmsgs : req.messages ≠ [])
    (hmc : MODEL_MAP (req.model.getD "claude-code") = some mc)
    (hstream : req.stream.getD false = false) :
    chat_completions cfg authHeader (some req) runner cid now =
      GatewayResult.completion 200 (create_response
        (call_agent
          ⟨(if cfg.forceAgent ≠ "" then cfg.forceAgent else mc.agent),
           (if cfg.forceAgent ≠ "" then none else mc.model),
           messages_to_prompt req.messages, req.context,
           extract_json_schema req.response_format⟩ runner)
        (req.model.getD "claude-code") cid now 0 0) := by
  simp [chat_completions, hauth, hmsgs, hmc, hstream]

theorem chat_completions_valid_stream
    (cfg : Config) (authHeader : String) (req : ChatRequest)
    (runner : AgentInvocation → AgentOutcome) (cid : String) (now : Nat)
    (mc : ModelConfig)
    (hauth : check_auth cfg authHeader = true)
    (hmsgs : req.messages ≠ [])
    (hmc : MODEL_MAP (req.model.getD "claude-code") = some mc)
    (hstream : req.stream.getD false = true) :
    chat_completions cfg authHeader (some req) runner cid now =
      GatewayResult.sse 200 (stream_response
        (call_agent
          ⟨(if cfg.forceAgent ≠ "" then cfg.forceAgent else mc.agent),
           (if cfg.forceAgent ≠ "" then none else mc.model),
           messages_to_prompt req.messages, req.context,
           extract_json_schema req.response_format⟩ runner)
        (req.model.getD "claude-code") cid now) := by
  simp [chat_completions, hauth, hmsgs, hmc, hstream]

/-! ## Claims about the gateway -/

/-- C1 counterexample: a non-streaming request whose prompt has four words
while the completion text has one.  The code estimates `prompt_tokens` from
the completion content (giving `1 / 2 = 0`), not from the prompt (whose
word count floor-divided by two is `2`). -/
theorem usage_prompt_tokens_counterexample :
    chat_completions ⟨"", ""⟩ ""
        (some ⟨some "claude-code", [⟨"user", Content.str "a b c d"⟩], some false, none, none⟩)
        (fun _ => AgentOutcome.completed 0 "hello" "") "cid" 7
      = GatewayResult.completion 200 (create_response "hello" "claude-code" "cid" 7 0 0) ∧
    (create_response "hello" "claude-code" "cid" 7 0 0).usage.prompt_tokens = 0 ∧
    wordCount (messages_to_prompt [⟨"user", Content.str "a b c d"⟩]) / 2 = 2 ∧
    (0 : Nat) ≠ 2 :=
  ⟨by decide, by decide, by decide, by decide⟩

/-- C1 (amended): for every non-streaming chat-completion request that
reaches the agent call, the completion's usage fields are estimated from
the completion content: `prompt_tokens` is the whitespace-delimited word
count of the completion content floor-divided by two, and
`completion_tokens` is that word count itself. -/
theorem usage_estimated_from_completion_content
    (cfg : Config) (authHeader : String) (req : ChatRequest)
    (runner : AgentInvocation → AgentOutcome) (cid : String) (now : Nat)
    (mc : ModelConfig)
    (hauth : check_auth cfg authHeader = true)
    (hmsgs : req.messages ≠ [])
    (hmc : MODEL_MAP (req.model.getD "claude-code") = some mc)
    (hstream : req.stream.getD false = false) :
    ∃ resp, chat_completions cfg authHeader (some req) runner cid now
        = GatewayResult.completion 200 resp ∧
      ∀ ch ∈ resp.choices,
        resp.usage.prompt_tokens = wordCount ch.content / 2 ∧
        resp.usage.completion_tokens = wordCount ch.content ∧
        resp.usage.total_tokens
          = wordCount ch.content / 2 + wordCount ch.content := by
  refine ⟨_, chat_completions_valid_nonstream cfg authHeader req runner cid now
    mc hauth hmsgs hmc hstream, ?_⟩
  intro ch hch
  simp [create_response] at hch
  subst hch
  simp [create_response]

theorem usage_estimated_witness :
    ∃ resp, chat_completions ⟨"", ""⟩ ""
        (some ⟨some "claude-code", [⟨"user", Content.str "hi"⟩], some false, none, none⟩)
        (fun _ => AgentOutcome.completed 0 "one two three" "") "cid" 7
      = GatewayResult.completion 200 resp ∧
      ∀ ch ∈ resp.choices,
        resp.usage.prompt_tokens = wordCount ch.content / 2 ∧
        resp.usage.completion_tokens = wordCount ch.content ∧
        resp.usage.total_tokens
          = wordCount ch.content / 2 + wordCount ch.content :=
  usage_estimated_from_completion_content ⟨"", ""⟩ ""
    ⟨some "claude-code", [⟨"user", Content.str "hi"⟩], some false, none, none⟩
    (fun _ => AgentOutcome.completed 0 "one two three" "") "cid" 7
    ⟨"claude", none⟩ (by decide) (by decide) (by decide) (by decide)

/-- C7 counterexample: a request whose model is not a key of the routing
table but whose `messages` array is empty is rejected before the routing
lookup: it receives HTTP 400 whose error body has no `type` field at all,
not `invalid_request_error`. -/
theorem unknown_model_counterexample :
    MODEL_MAP "nonexistent-model" = none ∧
    chat_completions ⟨"", ""⟩ ""
        (some ⟨some "nonexistent-model", [], none, none, none⟩)
        (fun _ => AgentOutcome.completed 0 "" "") "cid" 7
      = GatewayResult.err 400 "messages field required" none ∧
    errTypeOf (chat_completions ⟨"", ""⟩ ""
        (some ⟨some "nonexistent-model", [], none, none, none⟩)
        (fun _ => AgentOutcome.completed 0 "" "") "cid" 7)
      ≠ some "invalid_request_error" :=
  ⟨by decide, by decide, by decide⟩

/-- C7 (amended): `"claude-code-opus"` routes to agent `claude` with
sub-model `opus` when no forced-agent override is configured; and every
authenticated request with a JSON body and non-empty `messages` whose
model is not a key of the routing table receives HTTP 400 with
`error.type` equal to `"invalid_request_error"`. -/
theorem routing_opus_and_unknown_model
    (cfg : Config) (authHeader : String) (req : ChatRequest)
    (runner : AgentInvocation → AgentOutcome) (cid : String) (now : Nat)
    (hauth : check_auth cfg authHeader = true)
    (hmsgs : req.messages ≠ []) :
    MODEL_MAP "claude-code-opus" = some ⟨"claude", some "opus"⟩ ∧
    (cfg.forceAgent = "" → req.model = some "claude-code-opus" →
      req.stream.getD false = false →
      chat_completions cfg authHeader (some req) runner cid now =
        GatewayResult.completion 200 (create_response
          (call_agent
            ⟨"claude", some "opus", messages_to_prompt req.messages,
             req.context, extract_json_schema req.response_format⟩ runner)
          "claude-code-opus" cid now 0 0)) ∧
    (MODEL_MAP (req.model.getD "claude-code") = none →
      chat_completions cfg authHeader (some req) runner cid now =
        GatewayResult.err 400 ("Unknown model: " ++ req.model.getD "claude-code")
          (some "invalid_request_error")) := by
  refine ⟨by decide, ?_, ?_⟩
  · intro hfa hm hs
    have hmc : MODEL_MAP (req.model.getD "claude-code")
        = some ⟨"claude", some "opus"⟩ := by
      rw [hm]; rfl
    rw [chat_completions_valid_nonstream cfg authHeader req runner cid now
      ⟨"claude", some "opus"⟩ hauth hmsgs hmc hs]
    simp [hfa, hm]
  · intro hnone
    simp [chat_completions, hauth, hmsgs, hnone]

theorem routing_opus_witness :
    chat_completions ⟨"", ""⟩ ""
        (some ⟨some "claude-code-opus", [⟨"user", Content.str "hi"⟩], some false, none, none⟩)
        (fun _ => AgentOutcome.completed 0 "ok" "") "cid" 7 =
      GatewayResult.completion 200 (create_response
        (call_agent
          ⟨"claude", some "opus",
           messages_to_prompt [⟨"user", Content.str "hi"⟩], none, none⟩
          (fun _ => AgentOutcome.completed 0 "ok" ""))
        "claude-code-opus" "cid" 7 0 0) :=
  ((routing_opus_and_unknown_model ⟨"", ""⟩ ""
      ⟨some "claude-code-opus", [⟨"user", Content.str "hi"⟩], some false, none, none⟩
      (fun _ => AgentOutcome.completed 0 "ok" "") "cid" 7
      (by decide) (by decide)).2.1) rfl rfl rfl

/-- C8: a valid non-streaming request whose external invocation exits
non-zero with stderr `"boom"` yields HTTP 200 with a completion whose sole
choice's content is exactly `"Error: boom"`; and whatever the invocation
outcome, the status of a valid request's response is 200. -/
theorem invocation_failure_embedded_in_200
    (cfg : Config) (authHeader : String) (req : ChatRequest)
    (runner : AgentInvocation → AgentOutcome) (cid : String) (now : Nat)
    (mc : ModelConfig)
    (hauth : check_auth cfg authHeader = true)
    (hmsgs : req.messages ≠ [])
    (hmc : MODEL_MAP (req.model.getD "claude-code") = some mc)
    (hstream : req.stream.getD false = false)
    (hrun : ∀ inv, ∃ rc out, runner inv = AgentOutcome.completed rc out "boom" ∧ rc ≠ 0) :
    (∃ resp, chat_completions cfg authHeader (some req) runner cid now
        = GatewayResult.completion 200 resp ∧
      resp.choices.map Choice.content = ["Error: boom"]) ∧
    (∀ runner' : AgentInvocation → AgentOutcome,
      statusOf (chat_completions cfg authHeader (some req) runner' cid now) = 200) := by
  have hca : ∀ inv, call_agent inv runner = "Error: boom" := by
    intro inv
    obtain ⟨rc, out, hr, hrc⟩ := hrun inv
    simp [call_agent, hr, hrc, show strip "boom" = "boom" from by decide]
  constructor
  · refine ⟨_, chat_completions_valid_nonstream cfg authHeader req runner cid now
      mc hauth hmsgs hmc hstream, ?_⟩
    simp [create_response, hca]
  · intro runner'
    rw [chat_completions_valid_nonstream cfg authHeader req runner' cid now
      mc hauth hmsgs hmc hstream]
    rfl

theorem invocation_failure_witness :
    (∃ resp, chat_completions ⟨"", ""⟩ ""
        (some ⟨some "claude-code", [⟨"user", Content.str "hi"⟩], some false, none, none⟩)
        (fun _ => AgentOutcome.completed 2 "" "boom") "cid" 7
        = GatewayResult.completion 200 resp ∧
      resp.choices.map Choice.content = ["Error: boom"]) ∧
    statusOf (chat_completions ⟨"", ""⟩ ""
        (some ⟨some "claude-code", [⟨"user", Content.str "hi"⟩], some false, none, none⟩)
        (fun _ => AgentOutcome.timedOut) "cid" 7) = 200 :=
  ⟨(invocation_failure_embedded_in_200 ⟨"", ""⟩ ""
      ⟨some "claude-code", [⟨"user", Content.str "hi"⟩], some false, none, none⟩
      (fun _ => AgentOutcome.completed 2 "" "boom") "cid" 7 ⟨"claude", none⟩
      (by decide) (by decide) (by decide) (by decide)
      (fun _ => ⟨2, "", rfl, by decide⟩)).1,
   (invocation_failure_embedded_in_200 ⟨"", ""⟩ ""
      ⟨some "claude-code", [⟨"user", Content.str "hi"⟩], some false, none, none⟩
      (fun _ => AgentOutcome.completed 2 "" "boom") "cid" 7 ⟨"claude", none⟩
      (by decide) (by decide) (by decide) (by decide)
      (fun _ => ⟨2, "", rfl, by decide⟩)).2 (fun _ => AgentOutcome.timedOut)⟩

/-- C9: an authenticated request with non-empty messages whose body omits
`model` is never a 400: its response has status 200, it behaves exactly as
if the model were `"claude-code"`, and absent a forced-agent override a
non-streaming such request is served by agent `claude` with no sub-model
override. -/
theorem omitted_model_defaults_to_claude_code
    (cfg : Config) (authHeader : String) (req : ChatRequest)
    (runner : AgentInvocation → AgentOutcome) (cid : String) (now : Nat)
    (hauth : check_auth cfg authHeader = true)
    (hmsgs : req.messages ≠ [])
    (hmodel : req.model = none) :
    statusOf (chat_completions cfg authHeader (some req) runner cid now) = 200 ∧
    chat_completions cfg authHeader (some req) runner cid now =
      chat_completions cfg authHeader
        (some { req with model := some "claude-code" }) runner cid now ∧
    (cfg.forceAgent = "" → req.stream.getD false = false →
      chat_completions cfg authHeader (some req) runner cid now =
        GatewayResult.completion 200 (create_response
          (call_agent
            ⟨"claude", none, messages_to_prompt req.messages, req.context,
             extract_json_schema req.response_format⟩ runner)
          "claude-code" cid now 0 0)) := by
  have hmc : MODEL_MAP (req.model.getD "claude-code") = some ⟨"claude", none⟩ := by
    rw [hmodel]; rfl
  refine ⟨?_, ?_, ?_⟩
  · cases hs : req.stream.getD false with
    | false =>
      rw [chat_completions_valid_nonstream cfg authHeader req runner cid now
        ⟨"claude", none⟩ hauth hmsgs hmc hs]
      rfl
    | true =>
      rw [chat_completions_valid_stream cfg authHeader req runner cid now
        ⟨"claude", none⟩ hauth hmsgs hmc hs]
      rfl
  · simp [chat_completions, hmodel]
  · intro hfa hs
    rw [chat_completions_valid_nonstream cfg authHeader req runner cid now
      ⟨"claude", none⟩ hauth hmsgs hmc hs]
    simp [hfa, hmodel]

theorem omitted_model_witness :
    statusOf (chat_completions ⟨"", ""⟩ ""
        (some ⟨none, [⟨"user", Content.str "hi"⟩], none, none, none⟩)
        (fun _ => AgentOutcome.completed 0 "ok" "") "cid" 7) = 200 ∧
    chat_completions ⟨"", ""⟩ ""
        (some ⟨none, [⟨"user", Content.str "hi"⟩], none, none, none⟩)
        (fun _ => AgentOutcome.completed 0 "ok" "") "cid" 7 =
      chat_completions ⟨"", ""⟩ ""
        (some ⟨some "claude-code", [⟨"user", Content.str "hi"⟩], none, none, none⟩)
        (fun _ => AgentOutcome.completed 0 "ok" "") "cid" 7 ∧
    chat_completions ⟨"", ""⟩ ""
        (some ⟨none, [⟨"user", Content.str "hi"⟩], none, none, none⟩)
        (fun _ => AgentOutcome.completed 0 "ok" "") "cid" 7 =
      GatewayResult.completion 200 (create_response
        (call_agent
          ⟨"claude", none, messages_to_prompt [⟨"user", Content.str "hi"⟩], none, none⟩
          (fun _ => AgentOutcome.completed 0 "ok" ""))
        "claude-code" "cid" 7 0 0) := by
  have h := omitted_model_defaults_to_claude_code ⟨"", ""⟩ ""
    ⟨none, [⟨"user", Content.str "hi"⟩], none, none, none⟩
    (fun _ => AgentOutcome.completed 0 "ok" "") "cid" 7
    (by decide) (by decide) rfl
  exact ⟨h.1, h.2.1, h.2.2 rfl rfl⟩

/-- C10: streaming an empty completed text still yields exactly one chunk
event — carrying the empty delta object and finish reason `"stop"` —
followed by the `[DONE]` sentinel; the stream is never empty. -/
theorem stream_empty_content (content model cid : String) (now : Nat)
    (hempty : content = "") :
    stream_response content model cid now =
      [SSEEvent.chunk cid now model none (some "stop"), SSEEvent.done] ∧
    stream_response content model cid now ≠ [] := by
  subst hempty
  have h1 : stream_response "" model cid now =
      [SSEEvent.chunk cid now model none (some "stop"), SSEEvent.done] := rfl
  exact ⟨h1, by rw [h1]; exact List.cons_ne_nil _ _⟩

theorem stream_empty_content_witness :
    stream_response "" "claude-code" "cid" 7 =
      [SSEEvent.chunk "cid" 7 "claude-code" none (some "stop"), SSEEvent.done] ∧
    stream_response "" "claude-code" "cid" 7 ≠ [] :=
  stream_empty_content "" "claude-code" "cid" 7 rfl

/-! ## Chunking lemmas and the streaming-shape claim -/

theorem chunkSplit20Fuel_congr :
    ∀ (f g : Nat) (cs : List Char), cs.length ≤ f → cs.length ≤ g →
      chunkSplit20Fuel f cs = chunkSplit20Fuel g cs := by
  intro f
  induction f with
  | zero =>
    intro g cs h1 _
    have hnil : cs = [] := List.eq_nil_of_length_eq_zero (Nat.le_zero.mp h1)
    subst hnil
    cases g <;> rfl
  | succ f ih =>
    intro g cs h1 h2
    cases cs with
    | nil => cases g <;> rfl
    | cons c cs' =>
      cases g with
      | zero => exact absurd h2 (by simp)
      | succ g' =>
        simp only [chunkSplit20Fuel]
        congr 1
        apply ih
        · simp only [List.length_drop, List.length_cons] at *
          omega
        · simp only [List.length_drop, List.length_cons] at *
          omega

theorem chunkSplit20_cons (cs : List Char) (h : cs ≠ []) :
    chunkSplit20 cs = cs.take 20 :: chunkSplit20 (cs.drop 20) := by
  obtain ⟨c, cs', rfl⟩ := List.exists_cons_of_ne_nil h
  show chunkSplit20Fuel (c :: cs').length (c :: cs') = _
  simp only [List.length_cons, chunkSplit20Fuel]
  congr 1
  apply chunkSplit20Fuel_congr
  · simp only [List.length_drop, List.length_cons]
    omega
  · exact Nat.le_refl _

/-- C2 counterexample: on a concrete 45-character result the stream has
exactly four events — three content chunks, the third of which itself
carries the `"stop"` finish reason alongside its 5-character delta — and
the `[DONE]` sentinel; there is no separate stop-reason event after the
three chunks. -/
theorem stream_45_counterexample :
    stream_response (String.mk (List.replicate 45 'x')) "m" "cid" 7 =
      [ SSEEvent.chunk "cid" 7 "m" (some (List.replicate 20 'x')) none,
        SSEEvent.chunk "cid" 7 "m" (some (List.replicate 20 'x')) none,
        SSEEvent.chunk "cid" 7 "m" (some (List.replicate 5 'x')) (some "stop"),
        SSEEvent.done ] ∧
    (stream_response (String.mk (List.replicate 45 'x')) "m" "cid" 7).length = 4 :=
  ⟨by decide, by decide⟩

/-- C2 (amended): for every 45-character completed text the stream is
exactly three chunk events carrying 20, 20 and 5 characters of delta
content, the first two with no finish reason and the third also carrying
finish reason `"stop"`, followed by the `[DONE]` sentinel. -/
theorem stream_three_chunks_of_45 (s model cid : String) (now : Nat)
    (h : s.data.length = 45) :
    stream_response s model cid now =
      [ SSEEvent.chunk cid now model (some (s.data.take 20)) none,
        SSEEvent.chunk cid now model (some ((s.data.drop 20).take 20)) none,
        SSEEvent.chunk cid now model (some (s.data.drop 40)) (some "stop"),
        SSEEvent.done ] ∧
    (s.data.take 20).length = 20 ∧ ((s.data.drop 20).take 20).length = 20 ∧
    (s.data.drop 40).length = 5 := by
  have hd20 : (s.data.drop 20).length = 25 := by
    simp [List.length_drop, h]
  have hd40 : (s.data.drop 40).length = 5 := by
    simp [List.length_drop, h]
  have ht20 : (s.data.take 20).length = 20 := by
    simp [List.length_take, h]
  have ht20' : ((s.data.drop 20).take 20).length = 20 := by
    simp [List.length_take, hd20]
  have l1 : s.data ≠ [] := by
    intro hn; rw [hn] at h; simp at h
  have l2 : s.data.drop 20 ≠ [] := by
    intro hn; rw [hn] at hd20; simp at hd20
  have l3 : s.data.drop 40 ≠ [] := by
    intro hn; rw [hn] at hd40; simp at hd40
  have t1 : s.data.take 20 ≠ [] := by
    intro hn; rw [hn] at ht20; simp at ht20
  have t2 : (s.data.drop 20).take 20 ≠ [] := by
    intro hn; rw [hn] at ht20'; simp at ht20'
  have hdd : (s.data.drop 20).drop 20 = s.data.drop 40 := by
    rw [List.drop_drop]
  have ht3 : (s.data.drop 40).take 20 = s.data.drop 40 :=
    List.take_of_length_le (by rw [hd40]; omega)
  have hnil : (s.data.drop 40).drop 20 = [] :=
    List.drop_eq_nil_of_le (by rw [hd40]; omega)
  have hchunks : chunkSplit20 s.data
      = [s.data.take 20, (s.data.drop 20).take 20, s.data.drop 40] := by
    rw [chunkSplit20_cons s.data l1, chunkSplit20_cons _ l2, hdd,
      chunkSplit20_cons _ l3, ht3, hnil]
    rfl
  refine ⟨?_, ht20, ht20', hd40⟩
  simp only [stream_response, hchunks]
  simp [List.enum, List.enumFrom, t1, t2, l3]

theorem stream_three_chunks_witness :
    stream_response (String.mk (List.replicate 45 'y')) "claude-code" "cid" 7 =
      [ SSEEvent.chunk "cid" 7 "claude-code"
          (some ((String.mk (List.replicate 45 'y')).data.take 20)) none,
        SSEEvent.chunk "cid" 7 "claude-code"
          (some (((String.mk (List.replicate 45 'y')).data.drop 20).take 20)) none,
        SSEEvent.chunk "cid" 7 "claude-code"
          (some ((String.mk (List.replicate 45 'y')).data.drop 40)) (some "stop"),
        SSEEvent.done ] ∧
    ((String.mk (List.replicate 45 'y')).data.take 20).length = 20 ∧
    (((String.mk (List.replicate 45 'y')).data.drop 20).take 20).length = 20 ∧
    ((String.mk (List.replicate 45 'y')).data.drop 40).length = 5 :=
  stream_three_chunks_of_45 (String.mk (List.replicate 45 'y'))
    "claude-code" "cid" 7 (by decide)

end CliApi
